import Mathlib

/-!
Shallow embedding of `src/main.py` (the `StravaCommitUpdater` class and `main`).

The script performs blocking HTTP calls through the `requests` library.  We
model the outside world as a `Transport` oracle giving, for each kind of
endpoint and each call index, the outcome of that HTTP request.  Every
embedded method additionally threads

  * the mutable object state (`UpdaterState`, holding `self.access_token`), and
  * a chronological `Trace` of the outbound HTTP requests actually made,

so that claims about call counts, call order and request parameters are
statable.  Python's `return None` / `return False` failure signalling is kept
as `Option`/`Bool`; an exception that the source does *not* catch (the
`KeyError` raised by `token_data['access_token']` when the field is absent —
the `except` clause only catches `requests.exceptions.RequestException`) is
modelled as `Except.error`.
-/

namespace StravaSpec

/-- Outcome of one HTTP request as seen through `requests`: either the request
itself raised `requests.exceptions.RequestException` (DNS/connection error),
or a response arrived with a status code and a parsed body.
`Response.raise_for_status()` raises exactly for status codes `400 ≤ st < 600`;
since `requests` follows redirects, we model "error status" as `400 ≤ st`. -/
inductive HttpOutcome (α : Type) where
  | netError : HttpOutcome α
  | response (status : Nat) (body : α) : HttpOutcome α
deriving DecidableEq

/-- An activity object from the listing endpoint.  The source reads the
`id`, `name` and `type` fields; all other remote attributes are opaque and
omitted. -/
structure Activity where
  id : Nat
  name : String
  type : String
deriving DecidableEq

/-- One outbound HTTP request made by the script, in chronological order:
the token-exchange POST, the activity-listing GET (recording the bearer token
sent and the `per_page` query parameter), the caption GET, and the rename PUT
(recording the bearer token, the activity id in the URL and the new `name`
form field). -/
inductive Event where
  | tokenExchange : Event
  | listActivities (bearer : String) (perPage : Nat) : Event
  | captionFetch : Event
  | renameActivity (bearer : String) (id : Nat) (newName : String) : Event
deriving DecidableEq

abbrev Trace := List Event

def isTokenExchange : Event → Bool
  | .tokenExchange => true
  | _ => false

def isCaptionFetch : Event → Bool
  | .captionFetch => true
  | _ => false

/-- Number of token-exchange POSTs in a trace. -/
def countTokenExchanges (tr : Trace) : Nat := tr.countP isTokenExchange

/-- Number of caption GETs in a trace. -/
def countCaptionFetches (tr : Trace) : Nat := tr.countP isCaptionFetch

/-- The listing GETs in a trace, as (bearer token, per_page) pairs. -/
def listEvents (tr : Trace) : List (String × Nat) :=
  tr.filterMap fun e =>
    match e with
    | .listActivities b p => some (b, p)
    | _ => none

/-- The rename PUTs in a trace, as (bearer token, activity id, new name). -/
def renameEvents (tr : Trace) : List (String × Nat × String) :=
  tr.filterMap fun e =>
    match e with
    | .renameActivity b i n => some (b, i, n)
    | _ => none

/-- The outside world: what each endpoint answers on its `k`-th call
(`k` counted per endpoint, starting at 0).  The token endpoint's body is
reduced to the one field the source reads: `some tok` when the JSON body has
an `access_token` field with value `tok`, `none` when the field is absent. -/
structure Transport where
  tokenResp : Nat → HttpOutcome (Option String)
  listResp : Nat → HttpOutcome (List Activity)
  captionResp : Nat → HttpOutcome String
  renameResp : Nat → HttpOutcome Unit

/-- The uncaught Python exception the source can raise: `token_data['access_token']`
raises `KeyError` when the field is missing, and the surrounding `except`
clause only catches `requests.exceptions.RequestException`. -/
inductive PyError where
  | keyError : PyError
deriving DecidableEq

/-- The mutable fields of a `StravaCommitUpdater` instance.  `access_token`
is `None` at construction and is only assigned by `refresh_access_token`. -/
structure UpdaterState where
  client_id : String
  client_secret : String
  refresh_token : String
  access_token : Option String
deriving DecidableEq

/-- Python truthiness of `self.access_token`: `not self.access_token` is true
both for `None` and for the empty string. -/
def tokenFalsy : Option String → Bool
  | none => true
  | some t => t == ""

/-- The bearer string interpolated into the `Authorization` header
(`f'Bearer {self.access_token}'`); at every use site the token has just been
checked/refreshed, so the `getD` default is never the value actually sent. -/
def bearerOf (s : UpdaterState) : String := s.access_token.getD ""

/-- `StravaCommitUpdater.refresh_access_token`: POST to the token endpoint
with the stored client id / secret / refresh token.  A transport error or an
error status (caught via `raise_for_status`) prints and returns `False`; a
successful response stores `token_data['access_token']` and returns `True`,
or raises an uncaught `KeyError` when the body lacks that field. -/
def refresh_access_token (T : Transport) (s : UpdaterState) (tr : Trace) :
    Except PyError Bool × UpdaterState × Trace :=
  let tr1 := tr ++ [Event.tokenExchange]
  match T.tokenResp (countTokenExchanges tr) with
  | .netError => (Except.ok false, s, tr1)
  | .response st body =>
    if 400 ≤ st then (Except.ok false, s, tr1)
    else
      match body with
      | none => (Except.error PyError.keyError, s, tr1)
      | some tok => (Except.ok true, { s with access_token := some tok }, tr1)

/-- The body of `get_last_runs` after the token guard: GET the listing
endpoint with `per_page: 100`, return `None` on `RequestException`, else
filter the page for `type == 'Run'` and truncate to the first `count`. -/
def listAndFilter (T : Transport) (s : UpdaterState) (count : Nat) (tr : Trace) :
    Except PyError (Option (List Activity)) × UpdaterState × Trace :=
  let tr1 := tr ++ [Event.listActivities (bearerOf s) 100]
  match T.listResp (listEvents tr).length with
  | .netError => (Except.ok none, s, tr1)
  | .response st acts =>
    if 400 ≤ st then (Except.ok none, s, tr1)
    else (Except.ok (some ((acts.filter fun a => a.type == "Run").take count)), s, tr1)

/-- `StravaCommitUpdater.get_last_runs`: refresh the token first when
`not self.access_token`; abort with `None` if that refresh returns `False`;
otherwise fetch one page of 100 activities, filter for runs and truncate. -/
def get_last_runs (T : Transport) (s : UpdaterState) (count : Nat) (tr : Trace) :
    Except PyError (Option (List Activity)) × UpdaterState × Trace :=
  if tokenFalsy s.access_token then
    match refresh_access_token T s tr with
    | (Except.error e, s1, tr1) => (Except.error e, s1, tr1)
    | (Except.ok false, s1, tr1) => (Except.ok none, s1, tr1)
    | (Except.ok true, s1, tr1) => listAndFilter T s1 count tr1
  else listAndFilter T s count tr

/-- Python's `str.isspace` character class, the set stripped by `str.strip()`:
ASCII whitespace, the C1 controls `\x1c`–`\x1f` and `\x85`, and the Unicode
space separators. -/
def pyIsSpace (c : Char) : Bool :=
  c == ' ' || c == '\t' || c == '\n' || c == '\r'
  || c.val == 0x0b || c.val == 0x0c
  || c.val == 0x1c || c.val == 0x1d || c.val == 0x1e || c.val == 0x1f
  || c.val == 0x85 || c.val == 0xa0 || c.val == 0x1680
  || (decide (0x2000 ≤ c.val) && decide (c.val ≤ 0x200a))
  || c.val == 0x2028 || c.val == 0x2029 || c.val == 0x202f
  || c.val == 0x205f || c.val == 0x3000

/-- Python `str.strip()`: drop the longest all-whitespace prefix and the
longest all-whitespace suffix. -/
def pyStrip (s : String) : String :=
  String.mk ((s.data.dropWhile pyIsSpace).rdropWhile pyIsSpace)

/-- `StravaCommitUpdater.get_random_commit_message`: unauthenticated GET to
the caption endpoint; on success return `response.text.strip()`, on
`RequestException` (transport error or error status) print and return `None`. -/
def get_random_commit_message (T : Transport) (tr : Trace) :
    Option String × Trace :=
  let tr1 := tr ++ [Event.captionFetch]
  match T.captionResp (countCaptionFetches tr) with
  | .netError => (none, tr1)
  | .response st body =>
    if 400 ≤ st then (none, tr1) else (some (pyStrip body), tr1)

/-- The body of `update_activity_title` after the token guard: PUT the new
name to the per-activity URL; `True` on success, `False` on
`RequestException`. -/
def putTitle (T : Transport) (s : UpdaterState) (aid : Nat) (newTitle : String)
    (tr : Trace) : Except PyError Bool × UpdaterState × Trace :=
  let tr1 := tr ++ [Event.renameActivity (bearerOf s) aid newTitle]
  match T.renameResp (renameEvents tr).length with
  | .netError => (Except.ok false, s, tr1)
  | .response st _ =>
    if 400 ≤ st then (Except.ok false, s, tr1) else (Except.ok true, s, tr1)

/-- `StravaCommitUpdater.update_activity_title`: same lazy token guard as
`get_last_runs`, then the rename PUT. -/
def update_activity_title (T : Transport) (s : UpdaterState) (aid : Nat)
    (newTitle : String) (tr : Trace) : Except PyError Bool × UpdaterState × Trace :=
  if tokenFalsy s.access_token then
    match refresh_access_token T s tr with
    | (Except.error e, s1, tr1) => (Except.error e, s1, tr1)
    | (Except.ok false, s1, tr1) => (Except.ok false, s1, tr1)
    | (Except.ok true, s1, tr1) => putTitle T s1 aid newTitle tr1
  else putTitle T s aid newTitle tr

/-- The `for i, activity in enumerate(runs, 1)` loop of `update_last_runs`:
per item, fetch a fresh caption; the guard `if not commit_message: continue`
then skips the item whenever the caption is Python-falsy — both when the
fetch failed (`None`) and when a successful body stripped to the empty
string (a whitespace-only caption body).  Otherwise attempt the rename,
incrementing `success_count` only when `update_activity_title` returned
`True`.  Returns the final `success_count`, or propagates an uncaught
exception. -/
def processRuns (T : Transport) :
    List Activity → UpdaterState → Nat → Trace → Except PyError Nat × UpdaterState × Trace
  | [], s, succ, tr => (Except.ok succ, s, tr)
  | act :: rest, s, succ, tr =>
    match get_random_commit_message T tr with
    | (none, tr1) => processRuns T rest s succ tr1
    | (some msg, tr1) =>
      if msg == "" then processRuns T rest s succ tr1
      else
        match update_activity_title T s act.id msg tr1 with
        | (Except.error e, s1, tr2) => (Except.error e, s1, tr2)
        | (Except.ok true, s1, tr2) => processRuns T rest s1 (succ + 1) tr2
        | (Except.ok false, s1, tr2) => processRuns T rest s1 succ tr2

/-- The report `update_last_runs` leaves behind: `none` for the early
`return` after `if not runs:` (printing "No running activities found or error
occurred" — the same message whether `get_last_runs` returned `None` or an
empty list), or `some (attempted, succeeded)` for the final summary line
"Successfully updated {success_count} out of {len(runs)} activities". -/
abbrev RunReport := Option (Nat × Nat)

/-- `StravaCommitUpdater.update_last_runs`, started on an empty trace. -/
def update_last_runs (T : Transport) (s : UpdaterState) (count : Nat) :
    Except PyError RunReport × UpdaterState × Trace :=
  match get_last_runs T s count [] with
  | (Except.error e, s1, tr1) => (Except.error e, s1, tr1)
  | (Except.ok none, s1, tr1) => (Except.ok none, s1, tr1)
  | (Except.ok (some runs), s1, tr1) =>
    if runs.isEmpty then (Except.ok none, s1, tr1)
    else
      match processRuns T runs s1 0 tr1 with
      | (Except.error e, s2, tr2) => (Except.error e, s2, tr2)
      | (Except.ok succ, s2, tr2) => (Except.ok (some (runs.length, succ)), s2, tr2)

/-- The three environment variables read by `main` (`os.getenv` yields `None`
when a variable is unset, the empty string when it is set but empty). -/
structure Env where
  STRAVA_CLIENT_ID : Option String
  STRAVA_CLIENT_SECRET : Option String
  STRAVA_REFRESH_TOKEN : Option String

/-- Python falsiness of one `os.getenv` result, as tested by
`not all([...])`: `None` and `""` are falsy. -/
def strFalsy : Option String → Bool
  | none => true
  | some v => v == ""

/-- What a run of `main` amounts to: the missing-variables early return, or a
completed (or exception-aborted) `update_last_runs`. -/
inductive MainResult where
  | configError : MainResult
  | ran (outcome : Except PyError RunReport) : MainResult

/-- `main`: check the three environment variables; if any is falsy print the
error and return before constructing the updater (so before any HTTP call),
else build a fresh `StravaCommitUpdater` and call `update_last_runs(30)`. -/
def main (env : Env) (T : Transport) : MainResult × Trace :=
  if strFalsy env.STRAVA_CLIENT_ID || strFalsy env.STRAVA_CLIENT_SECRET
      || strFalsy env.STRAVA_REFRESH_TOKEN then
    (MainResult.configError, [])
  else
    match update_last_runs T
        { client_id := env.STRAVA_CLIENT_ID.getD ""
          client_secret := env.STRAVA_CLIENT_SECRET.getD ""
          refresh_token := env.STRAVA_REFRESH_TOKEN.getD ""
          access_token := none } 30 with
    | (r, _, tr) => (MainResult.ran r, tr)

/-! ## General facts about the embedding, shared between claims -/

theorem listEvents_append (a b : Trace) :
    listEvents (a ++ b) = listEvents a ++ listEvents b :=
  List.filterMap_append a b _

theorem renameEvents_append (a b : Trace) :
    renameEvents (a ++ b) = renameEvents a ++ renameEvents b :=
  List.filterMap_append a b _

theorem countTokenExchanges_append (a b : Trace) :
    countTokenExchanges (a ++ b) = countTokenExchanges a + countTokenExchanges b :=
  List.countP_append _ a b

theorem countCaptionFetches_append (a b : Trace) :
    countCaptionFetches (a ++ b) = countCaptionFetches a + countCaptionFetches b :=
  List.countP_append _ a b

theorem refresh_eq_netError (T : Transport) (s : UpdaterState) (tr : Trace)
    (hT : T.tokenResp (countTokenExchanges tr) = HttpOutcome.netError) :
    refresh_access_token T s tr = (Except.ok false, s, tr ++ [Event.tokenExchange]) := by
  simp [refresh_access_token, hT]

theorem refresh_eq_errStatus (T : Transport) (s : UpdaterState) (tr : Trace)
    (st : Nat) (body : Option String)
    (hT : T.tokenResp (countTokenExchanges tr) = HttpOutcome.response st body)
    (hst : 400 ≤ st) :
    refresh_access_token T s tr = (Except.ok false, s, tr ++ [Event.tokenExchange]) := by
  simp [refresh_access_token, hT, hst]

theorem refresh_eq_noField (T : Transport) (s : UpdaterState) (tr : Trace)
    (st : Nat)
    (hT : T.tokenResp (countTokenExchanges tr) = HttpOutcome.response st none)
    (hst : st < 400) :
    refresh_access_token T s tr =
      (Except.error PyError.keyError, s, tr ++ [Event.tokenExchange]) := by
  simp [refresh_access_token, hT, Nat.not_le.mpr hst]

theorem refresh_eq_ok (T : Transport) (s : UpdaterState) (tr : Trace)
    (st : Nat) (tok : String)
    (hT : T.tokenResp (countTokenExchanges tr) = HttpOutcome.response st (some tok))
    (hst : st < 400) :
    refresh_access_token T s tr =
      (Except.ok true, { s with access_token := some tok }, tr ++ [Event.tokenExchange]) := by
  simp [refresh_access_token, hT, Nat.not_le.mpr hst]

theorem refresh_cases (T : Transport) (s : UpdaterState) (tr : Trace)
    (r : Except PyError Bool) (s' : UpdaterState) (tr' : Trace)
    (h : refresh_access_token T s tr = (r, s', tr')) :
    tr' = tr ++ [Event.tokenExchange] ∧
    ((r = Except.ok false ∧ s' = s) ∨ (r = Except.error PyError.keyError ∧ s' = s) ∨
      (∃ tok, r = Except.ok true ∧ s' = { s with access_token := some tok })) := by
  rcases hT : T.tokenResp (countTokenExchanges tr) with _ | ⟨st, body⟩
  · rw [refresh_eq_netError T s tr hT] at h
    simp only [Prod.mk.injEq] at h
    exact ⟨h.2.2.symm, Or.inl ⟨h.1.symm, h.2.1.symm⟩⟩
  · by_cases hst : 400 ≤ st
    · rw [refresh_eq_errStatus T s tr st body hT hst] at h
      simp only [Prod.mk.injEq] at h
      exact ⟨h.2.2.symm, Or.inl ⟨h.1.symm, h.2.1.symm⟩⟩
    · rcases body with _ | tok
      · rw [refresh_eq_noField T s tr st hT (by omega)] at h
        simp only [Prod.mk.injEq] at h
        exact ⟨h.2.2.symm, Or.inr (Or.inl ⟨h.1.symm, h.2.1.symm⟩)⟩
      · rw [refresh_eq_ok T s tr st tok hT (by omega)] at h
        simp only [Prod.mk.injEq] at h
        exact ⟨h.2.2.symm, Or.inr (Or.inr ⟨tok, h.1.symm, h.2.1.symm⟩)⟩

theorem listAndFilter_eq_netError (T : Transport) (s : UpdaterState) (count : Nat)
    (tr : Trace) (hT : T.listResp (listEvents tr).length = HttpOutcome.netError) :
    listAndFilter T s count tr =
      (Except.ok none, s, tr ++ [Event.listActivities (bearerOf s) 100]) := by
  simp [listAndFilter, hT]

theorem listAndFilter_eq_errStatus (T : Transport) (s : UpdaterState) (count : Nat)
    (tr : Trace) (st : Nat) (acts : List Activity)
    (hT : T.listResp (listEvents tr).length = HttpOutcome.response st acts)
    (hst : 400 ≤ st) :
    listAndFilter T s count tr =
      (Except.ok none, s, tr ++ [Event.listActivities (bearerOf s) 100]) := by
  simp [listAndFilter, hT, hst]

theorem listAndFilter_eq_ok (T : Transport) (s : UpdaterState) (count : Nat)
    (tr : Trace) (st : Nat) (acts : List Activity)
    (hT : T.listResp (listEvents tr).length = HttpOutcome.response st acts)
    (hst : st < 400) :
    listAndFilter T s count tr =
      (Except.ok (some ((acts.filter fun a => a.type == "Run").take count)), s,
        tr ++ [Event.listActivities (bearerOf s) 100]) := by
  simp [listAndFilter, hT, Nat.not_le.mpr hst]

theorem listAndFilter_some (T : Transport) (s : UpdaterState) (count : Nat)
    (tr : Trace) (runs : List Activity) (s' : UpdaterState) (tr' : Trace)
    (h : listAndFilter T s count tr = (Except.ok (some runs), s', tr')) :
    ∃ st page, T.listResp (listEvents tr).length = HttpOutcome.response st page ∧
      st < 400 ∧ runs = ((page.filter fun a => a.type == "Run").take count) ∧
      s' = s ∧ tr' = tr ++ [Event.listActivities (bearerOf s) 100] := by
  rcases hT : T.listResp (listEvents tr).length with _ | ⟨st, page⟩
  · rw [listAndFilter_eq_netError T s count tr hT] at h
    simp at h
  · by_cases hst : 400 ≤ st
    · rw [listAndFilter_eq_errStatus T s count tr st page hT hst] at h
      simp at h
    · rw [listAndFilter_eq_ok T s count tr st page hT (by omega)] at h
      simp only [Prod.mk.injEq, Except.ok.injEq, Option.some.injEq] at h
      exact ⟨st, page, rfl, by omega, h.1.symm, h.2.1.symm, h.2.2.symm⟩

/-! ## C1 -/

/-- C1: on any successful `get_last_runs`, the single page fetched was
requested with `per_page = 100`; the result is exactly the page filtered to
activities whose `type` equals `"Run"`, truncated to the first `count`;
hence every returned activity is a run, the result preserves the received
order (it is a sublist of the page), it has at most `count` items, at most
as many as match on the page, and when at most `count` match it is exactly
the matching activities — with no second listing fetch. -/
theorem strava_C1 (T : Transport) (s : UpdaterState) (count : Nat)
    (runs : List Activity) (s' : UpdaterState) (tr : Trace)
    (st : Nat) (page : List Activity)
    (hresp : T.listResp 0 = HttpOutcome.response st page)
    (h : get_last_runs T s count [] = (Except.ok (some runs), s', tr)) :
    runs = ((page.filter fun a => a.type == "Run").take count) ∧
    (∀ a ∈ runs, a.type = "Run") ∧
    runs.length ≤ count ∧
    runs.Sublist page ∧
    runs.length ≤ (page.filter fun a => a.type == "Run").length ∧
    ((page.filter fun a => a.type == "Run").length ≤ count →
      runs = page.filter fun a => a.type == "Run") ∧
    (listEvents tr).map Prod.snd = [100] := by
  have key : runs = ((page.filter fun a => a.type == "Run").take count) ∧
      (listEvents tr).map Prod.snd = [100] := by
    unfold get_last_runs at h
    split at h
    · split at h
      · simp at h
      · simp at h
      · next s1 tr1 heq =>
        obtain ⟨htr1, -⟩ := refresh_cases T s [] _ s1 tr1 heq
        obtain ⟨st2, page2, hT2, hst2, hruns, -, htr'⟩ :=
          listAndFilter_some T s1 count tr1 runs s' tr h
        have hlist1 : listEvents tr1 = [] := by
          subst htr1; rfl
        rw [hlist1] at hT2
        simp only [List.length_nil] at hT2
        rw [hresp] at hT2
        obtain ⟨h1, h2⟩ := HttpOutcome.response.inj hT2
        subst h1 h2
        refine ⟨hruns, ?_⟩
        rw [htr', listEvents_append, hlist1]
        rfl
    · obtain ⟨st2, page2, hT2, hst2, hruns, -, htr'⟩ :=
        listAndFilter_some T s count [] runs s' tr h
      have hlist1 : listEvents ([] : Trace) = [] := rfl
      rw [hlist1] at hT2
      simp only [List.length_nil] at hT2
      rw [hresp] at hT2
      obtain ⟨h1, h2⟩ := HttpOutcome.response.inj hT2
      subst h1 h2
      refine ⟨hruns, ?_⟩
      rw [htr', listEvents_append]
      rfl
  obtain ⟨hruns, hlist⟩ := key
  subst hruns
  refine ⟨rfl, ?_, ?_, ?_, ?_, ?_, hlist⟩
  · intro a ha
    have ha2 := List.mem_of_mem_take ha
    have := (List.mem_filter.mp ha2).2
    simpa using this
  · simp only [List.length_take]
    exact Nat.min_le_left _ _
  · have h1 := List.take_prefix count (page.filter fun a => a.type == "Run")
    exact (h1.sublist).trans (List.filter_sublist page)
  · simp only [List.length_take]
    exact Nat.min_le_right _ _
  · intro hle
    exact List.take_of_length_le hle

/-! ## Concrete fixtures for witnesses and counterexamples -/

def runA : Activity := ⟨1, "Morning Run", "Run"⟩

def rideB : Activity := ⟨2, "Evening Ride", "Ride"⟩

def runC : Activity := ⟨3, "Night Run", "Run"⟩

/-- A transport where every endpoint answers successfully. -/
def happyT : Transport :=
  ⟨fun _ => .response 200 (some "tok"), fun _ => .response 200 [runA, rideB, runC],
    fun _ => .response 200 " Fix the bug ", fun _ => .response 200 ()⟩

/-- A freshly constructed updater (no token yet). -/
def freshS : UpdaterState := ⟨"id", "secret", "refresh", none⟩

/-- An updater already holding a (non-empty) token. -/
def authS : UpdaterState := ⟨"id", "secret", "refresh", some "tok"⟩

/-- C1 witness: the theorem applied to a page of three activities (two runs,
one ride) with `count = 5`. -/
theorem strava_C1_witness :
    [runA, runC] = (([runA, rideB, runC].filter fun a => a.type == "Run").take 5) ∧
    (∀ a ∈ [runA, runC], a.type = "Run") ∧
    [runA, runC].length ≤ 5 ∧
    [runA, runC].Sublist [runA, rideB, runC] ∧
    [runA, runC].length ≤ ([runA, rideB, runC].filter fun a => a.type == "Run").length ∧
    (([runA, rideB, runC].filter fun a => a.type == "Run").length ≤ 5 →
      [runA, runC] = [runA, rideB, runC].filter fun a => a.type == "Run") ∧
    (listEvents [Event.listActivities "tok" 100]).map Prod.snd = [100] :=
  strava_C1 happyT authS 5 [runA, runC] authS [Event.listActivities "tok" 100]
    200 [runA, rideB, runC] rfl rfl

/-! ## Characterizations of the caption fetch and the rename call -/

theorem caption_eq_netError (T : Transport) (tr : Trace)
    (hc : T.captionResp (countCaptionFetches tr) = HttpOutcome.netError) :
    get_random_commit_message T tr = (none, tr ++ [Event.captionFetch]) := by
  simp [get_random_commit_message, hc]

theorem caption_eq_errStatus (T : Transport) (tr : Trace) (st : Nat) (body : String)
    (hc : T.captionResp (countCaptionFetches tr) = HttpOutcome.response st body)
    (hst : 400 ≤ st) :
    get_random_commit_message T tr = (none, tr ++ [Event.captionFetch]) := by
  simp [get_random_commit_message, hc, hst]

theorem caption_eq_ok (T : Transport) (tr : Trace) (st : Nat) (body : String)
    (hc : T.captionResp (countCaptionFetches tr) = HttpOutcome.response st body)
    (hst : st < 400) :
    get_random_commit_message T tr = (some (pyStrip body), tr ++ [Event.captionFetch]) := by
  simp [get_random_commit_message, hc, Nat.not_le.mpr hst]

theorem caption_cases (T : Transport) (tr : Trace) (res : Option String) (tr' : Trace)
    (h : get_random_commit_message T tr = (res, tr')) :
    tr' = tr ++ [Event.captionFetch] := by
  rcases hc : T.captionResp (countCaptionFetches tr) with _ | ⟨st, body⟩
  · rw [caption_eq_netError T tr hc] at h
    exact (Prod.mk.inj h).2.symm
  · by_cases hst : 400 ≤ st
    · rw [caption_eq_errStatus T tr st body hc hst] at h
      exact (Prod.mk.inj h).2.symm
    · rw [caption_eq_ok T tr st body hc (by omega)] at h
      exact (Prod.mk.inj h).2.symm

theorem putTitle_eq_netError (T : Transport) (s : UpdaterState) (aid : Nat)
    (t : String) (tr : Trace)
    (hr : T.renameResp (renameEvents tr).length = HttpOutcome.netError) :
    putTitle T s aid t tr =
      (Except.ok false, s, tr ++ [Event.renameActivity (bearerOf s) aid t]) := by
  simp [putTitle, hr]

theorem putTitle_eq_errStatus (T : Transport) (s : UpdaterState) (aid : Nat)
    (t : String) (tr : Trace) (st : Nat) (u : Unit)
    (hr : T.renameResp (renameEvents tr).length = HttpOutcome.response st u)
    (hst : 400 ≤ st) :
    putTitle T s aid t tr =
      (Except.ok false, s, tr ++ [Event.renameActivity (bearerOf s) aid t]) := by
  simp [putTitle, hr, hst]

theorem putTitle_eq_ok (T : Transport) (s : UpdaterState) (aid : Nat)
    (t : String) (tr : Trace) (st : Nat) (u : Unit)
    (hr : T.renameResp (renameEvents tr).length = HttpOutcome.response st u)
    (hst : st < 400) :
    putTitle T s aid t tr =
      (Except.ok true, s, tr ++ [Event.renameActivity (bearerOf s) aid t]) := by
  simp [putTitle, hr, Nat.not_le.mpr hst]

theorem putTitle_cases (T : Transport) (s : UpdaterState) (aid : Nat) (t : String)
    (tr : Trace) (r : Except PyError Bool) (s' : UpdaterState) (tr' : Trace)
    (h : putTitle T s aid t tr = (r, s', tr')) :
    s' = s ∧ tr' = tr ++ [Event.renameActivity (bearerOf s) aid t] ∧
      (r = Except.ok true ∨ r = Except.ok false) := by
  rcases hr : T.renameResp (renameEvents tr).length with _ | ⟨st, u⟩
  · rw [putTitle_eq_netError T s aid t tr hr] at h
    simp only [Prod.mk.injEq] at h
    exact ⟨h.2.1.symm, h.2.2.symm, Or.inr h.1.symm⟩
  · by_cases hst : 400 ≤ st
    · rw [putTitle_eq_errStatus T s aid t tr st u hr hst] at h
      simp only [Prod.mk.injEq] at h
      exact ⟨h.2.1.symm, h.2.2.symm, Or.inr h.1.symm⟩
    · rw [putTitle_eq_ok T s aid t tr st u hr (by omega)] at h
      simp only [Prod.mk.injEq] at h
      exact ⟨h.2.1.symm, h.2.2.symm, Or.inl h.1.symm⟩

theorem countCaptionFetches_single_token (e : Event) (he : isCaptionFetch e = false) :
    countCaptionFetches [e] = 0 := by
  simp [countCaptionFetches, List.countP_cons, he]

theorem listEvents_single_nil (e : Event)
    (he : ∀ b p, e ≠ Event.listActivities b p) :
    listEvents [e] = [] := by
  unfold listEvents
  cases e with
  | tokenExchange => rfl
  | captionFetch => rfl
  | renameActivity b i n => rfl
  | listActivities b p => exact absurd rfl (he b p)

theorem update_cases (T : Transport) (s : UpdaterState) (aid : Nat) (t : String)
    (tr : Trace) (r : Except PyError Bool) (s' : UpdaterState) (tr' : Trace)
    (h : update_activity_title T s aid t tr = (r, s', tr')) :
    countCaptionFetches tr' = countCaptionFetches tr ∧
      listEvents tr' = listEvents tr := by
  have final : ∀ d : Trace, tr' = tr ++ d → countCaptionFetches d = 0 →
      listEvents d = [] →
      countCaptionFetches tr' = countCaptionFetches tr ∧
        listEvents tr' = listEvents tr := by
    intro d hd hc hl
    subst hd
    rw [countCaptionFetches_append, listEvents_append, hc, hl]
    simp
  unfold update_activity_title at h
  split at h
  · split at h
    · next s1 tr1 heq =>
      obtain ⟨htr1, -⟩ := refresh_cases T s tr _ s1 tr1 heq
      simp only [Prod.mk.injEq] at h
      exact final [Event.tokenExchange] (h.2.2.symm.trans htr1) rfl rfl
    · next s1 tr1 heq =>
      obtain ⟨htr1, -⟩ := refresh_cases T s tr _ s1 tr1 heq
      simp only [Prod.mk.injEq] at h
      exact final [Event.tokenExchange] (h.2.2.symm.trans htr1) rfl rfl
    · next s1 tr1 heq =>
      obtain ⟨htr1, -⟩ := refresh_cases T s tr _ s1 tr1 heq
      obtain ⟨-, htr', -⟩ := putTitle_cases T s1 aid t tr1 r s' tr' h
      subst htr1
      refine final [Event.tokenExchange, Event.renameActivity (bearerOf s1) aid t]
        (by rw [htr']; simp) rfl rfl
  · obtain ⟨-, htr', -⟩ := putTitle_cases T s aid t tr r s' tr' h
    exact final [Event.renameActivity (bearerOf s) aid t] htr' rfl rfl

/-! ## Facts about the per-item loop -/

theorem processRuns_ok_facts (T : Transport) (l : List Activity) :
    ∀ (s : UpdaterState) (succ : Nat) (tr : Trace) (succ' : Nat)
      (s' : UpdaterState) (tr' : Trace),
      processRuns T l s succ tr = (Except.ok succ', s', tr') →
      succ ≤ succ' ∧ succ' ≤ succ + l.length ∧
        countCaptionFetches tr' = countCaptionFetches tr + l.length ∧
        listEvents tr' = listEvents tr := by
  induction l with
  | nil =>
    intro s succ tr succ' s' tr' h
    simp only [processRuns, Prod.mk.injEq, Except.ok.injEq] at h
    obtain ⟨h1, -, h3⟩ := h
    subst h1 h3
    simp
  | cons a rest ih =>
    intro s succ tr succ' s' tr' h
    simp only [processRuns] at h
    rcases hg : get_random_commit_message T tr with ⟨res, tr1⟩
    rw [hg] at h
    have htr1 : tr1 = tr ++ [Event.captionFetch] := caption_cases T tr res tr1 hg
    have hc1 : countCaptionFetches tr1 = countCaptionFetches tr + 1 := by
      rw [htr1, countCaptionFetches_append]; rfl
    have hl1 : listEvents tr1 = listEvents tr := by
      have hnil : listEvents [Event.captionFetch] = [] := rfl
      rw [htr1, listEvents_append, hnil, List.append_nil]
    cases res with
    | none =>
      obtain ⟨t1, t2, t3, t4⟩ := ih s succ tr1 succ' s' tr' h
      refine ⟨t1, ?_, ?_, t4.trans hl1⟩
      · simp only [List.length_cons]; omega
      · rw [t3, hc1]; simp only [List.length_cons]; omega
    | some msg =>
      have h2 : (if msg == "" then processRuns T rest s succ tr1
          else match update_activity_title T s a.id msg tr1 with
          | (Except.error e, s1, tr2) => (Except.error e, s1, tr2)
          | (Except.ok true, s1, tr2) => processRuns T rest s1 (succ + 1) tr2
          | (Except.ok false, s1, tr2) => processRuns T rest s1 succ tr2) =
          (Except.ok succ', s', tr') := h
      by_cases hmsg : msg = ""
      · rw [if_pos (beq_iff_eq.mpr hmsg)] at h2
        obtain ⟨t1, t2, t3, t4⟩ := ih s succ tr1 succ' s' tr' h2
        refine ⟨t1, ?_, ?_, t4.trans hl1⟩
        · simp only [List.length_cons]; omega
        · rw [t3, hc1]; simp only [List.length_cons]; omega
      rw [if_neg (by simp [hmsg])] at h2
      rcases hu : update_activity_title T s a.id msg tr1 with ⟨r2, s2, tr2⟩
      rw [hu] at h2
      obtain ⟨hcc2, hle2⟩ := update_cases T s a.id msg tr1 r2 s2 tr2 hu
      cases r2 with
      | error e =>
        exact absurd (congrArg Prod.fst
          (show ((Except.error e : Except PyError Nat), s2, tr2) =
            (Except.ok succ', s', tr') from h2)) (by simp)
      | ok b =>
        cases b with
        | true =>
          obtain ⟨t1, t2, t3, t4⟩ := ih s2 (succ + 1) tr2 succ' s' tr' h2
          refine ⟨by omega, ?_, ?_, ?_⟩
          · simp only [List.length_cons]; omega
          · rw [t3, hcc2, hc1]; simp only [List.length_cons]; omega
          · rw [t4, hle2, hl1]
        | false =>
          obtain ⟨t1, t2, t3, t4⟩ := ih s2 succ tr2 succ' s' tr' h2
          refine ⟨t1, ?_, ?_, ?_⟩
          · simp only [List.length_cons]; omega
          · rw [t3, hcc2, hc1]; simp only [List.length_cons]; omega
          · rw [t4, hle2, hl1]

theorem listAndFilter_cases (T : Transport) (s : UpdaterState) (count : Nat)
    (tr : Trace) (r : Except PyError (Option (List Activity)))
    (s' : UpdaterState) (tr' : Trace)
    (h : listAndFilter T s count tr = (r, s', tr')) :
    s' = s ∧ tr' = tr ++ [Event.listActivities (bearerOf s) 100] := by
  rcases hT : T.listResp (listEvents tr).length with _ | ⟨st, acts⟩
  · rw [listAndFilter_eq_netError T s count tr hT] at h
    simp only [Prod.mk.injEq] at h
    exact ⟨h.2.1.symm, h.2.2.symm⟩
  · by_cases hst : 400 ≤ st
    · rw [listAndFilter_eq_errStatus T s count tr st acts hT hst] at h
      simp only [Prod.mk.injEq] at h
      exact ⟨h.2.1.symm, h.2.2.symm⟩
    · rw [listAndFilter_eq_ok T s count tr st acts hT (by omega)] at h
      simp only [Prod.mk.injEq] at h
      exact ⟨h.2.1.symm, h.2.2.symm⟩

theorem get_last_runs_trace (T : Transport) (s : UpdaterState) (count : Nat)
    (tr : Trace) (r : Except PyError (Option (List Activity)))
    (s' : UpdaterState) (tr' : Trace)
    (h : get_last_runs T s count tr = (r, s', tr')) :
    countCaptionFetches tr' = countCaptionFetches tr ∧
      renameEvents tr' = renameEvents tr := by
  have final : ∀ d : Trace, tr' = tr ++ d → countCaptionFetches d = 0 →
      renameEvents d = [] →
      countCaptionFetches tr' = countCaptionFetches tr ∧
        renameEvents tr' = renameEvents tr := by
    intro d hd hc hr
    subst hd
    rw [countCaptionFetches_append, renameEvents_append, hc, hr]
    simp
  unfold get_last_runs at h
  split at h
  · split at h
    · next s1 tr1 heq =>
      obtain ⟨htr1, -⟩ := refresh_cases T s tr _ s1 tr1 heq
      simp only [Prod.mk.injEq] at h
      exact final [Event.tokenExchange] (h.2.2.symm.trans htr1) rfl rfl
    · next s1 tr1 heq =>
      obtain ⟨htr1, -⟩ := refresh_cases T s tr _ s1 tr1 heq
      simp only [Prod.mk.injEq] at h
      exact final [Event.tokenExchange] (h.2.2.symm.trans htr1) rfl rfl
    · next s1 tr1 heq =>
      obtain ⟨htr1, -⟩ := refresh_cases T s tr _ s1 tr1 heq
      obtain ⟨-, htr'⟩ := listAndFilter_cases T s1 count tr1 r s' tr' h
      subst htr1
      exact final [Event.tokenExchange, Event.listActivities (bearerOf s1) 100]
        (by rw [htr']; simp) rfl rfl
  · obtain ⟨-, htr'⟩ := listAndFilter_cases T s count tr r s' tr' h
    exact final [Event.listActivities (bearerOf s) 100] htr' rfl rfl

theorem update_last_runs_inv (T : Transport) (s : UpdaterState) (count : Nat)
    (att sc : Nat) (s' : UpdaterState) (tr' : Trace)
    (h : update_last_runs T s count = (Except.ok (some (att, sc)), s', tr')) :
    ∃ runs s1 tr1, get_last_runs T s count [] = (Except.ok (some runs), s1, tr1) ∧
      runs ≠ [] ∧ att = runs.length ∧
      processRuns T runs s1 0 tr1 = (Except.ok sc, s', tr') := by
  unfold update_last_runs at h
  rcases hg : get_last_runs T s count [] with ⟨rg, s1, tr1⟩
  rw [hg] at h
  cases rg with
  | error e =>
    exact absurd (congrArg Prod.fst
      (show ((Except.error e : Except PyError RunReport), s1, tr1) =
        (Except.ok (some (att, sc)), s', tr') from h)) (by simp)
  | ok o =>
    cases o with
    | none =>
      exact absurd (congrArg Prod.fst
        (show ((Except.ok none : Except PyError RunReport), s1, tr1) =
          (Except.ok (some (att, sc)), s', tr') from h)) (by simp)
    | some runs =>
      have h1 : (if runs.isEmpty = true
          then ((Except.ok none : Except PyError RunReport), s1, tr1)
          else match processRuns T runs s1 0 tr1 with
            | (Except.error e, s2, tr2) =>
              ((Except.error e : Except PyError RunReport), s2, tr2)
            | (Except.ok succ, s2, tr2) =>
              (Except.ok (some (runs.length, succ)), s2, tr2)) =
          (Except.ok (some (att, sc)), s', tr') := h
      by_cases hemp : runs.isEmpty = true
      · rw [if_pos hemp] at h1
        exact absurd (congrArg Prod.fst
          (show ((Except.ok none : Except PyError RunReport), s1, tr1) =
            (Except.ok (some (att, sc)), s', tr') from h1)) (by simp)
      · rw [if_neg hemp] at h1
        rcases hp : processRuns T runs s1 0 tr1 with ⟨rp, s2, tr2⟩
        rw [hp] at h1
        cases rp with
        | error e =>
          exact absurd (congrArg Prod.fst
            (show ((Except.error e : Except PyError RunReport), s2, tr2) =
              (Except.ok (some (att, sc)), s', tr') from h1)) (by simp)
        | ok succ =>
          have h3 : ((Except.ok (some (runs.length, succ)) : Except PyError RunReport),
              s2, tr2) = (Except.ok (some (att, sc)), s', tr') := h1
          simp only [Prod.mk.injEq, Except.ok.injEq, Option.some.injEq] at h3
          obtain ⟨⟨hatt, hsc⟩, hs2, htr2⟩ := h3
          subst hs2 htr2 hsc
          exact ⟨runs, s1, tr1, rfl, fun hnil => hemp (by rw [hnil]; rfl),
            hatt.symm, hp⟩

theorem processRuns_cons_none (T : Transport) (a : Activity) (rest : List Activity)
    (s : UpdaterState) (succ : Nat) (tr tr1 : Trace)
    (hg : get_random_commit_message T tr = (none, tr1)) :
    processRuns T (a :: rest) s succ tr = processRuns T rest s succ tr1 := by
  simp only [processRuns]
  rw [hg]

theorem processRuns_cons_emptyMsg (T : Transport) (a : Activity)
    (rest : List Activity) (s : UpdaterState) (succ : Nat) (tr tr1 : Trace)
    (hg : get_random_commit_message T tr = (some "", tr1)) :
    processRuns T (a :: rest) s succ tr = processRuns T rest s succ tr1 := by
  simp only [processRuns]
  rw [hg]
  rfl

theorem processRuns_cons_step (T : Transport) (a : Activity) (rest : List Activity)
    (s : UpdaterState) (succ : Nat) (tr tr1 : Trace) (msg : String)
    (hg : get_random_commit_message T tr = (some msg, tr1)) (hmsg : msg ≠ "") :
    processRuns T (a :: rest) s succ tr =
      (match update_activity_title T s a.id msg tr1 with
       | (Except.error e, s1, tr2) => ((Except.error e : Except PyError Nat), s1, tr2)
       | (Except.ok true, s1, tr2) => processRuns T rest s1 (succ + 1) tr2
       | (Except.ok false, s1, tr2) => processRuns T rest s1 succ tr2) := by
  have h0 : processRuns T (a :: rest) s succ tr =
      (if msg == "" then processRuns T rest s succ tr1
       else match update_activity_title T s a.id msg tr1 with
       | (Except.error e, s1, tr2) => ((Except.error e : Except PyError Nat), s1, tr2)
       | (Except.ok true, s1, tr2) => processRuns T rest s1 (succ + 1) tr2
       | (Except.ok false, s1, tr2) => processRuns T rest s1 succ tr2) := by
    simp only [processRuns]
    rw [hg]
  rw [h0, if_neg (by simp [hmsg])]

theorem processRuns_cons_err (T : Transport) (a : Activity) (rest : List Activity)
    (s : UpdaterState) (succ : Nat) (tr tr1 : Trace) (msg : String)
    (e : PyError) (s2 : UpdaterState) (tr2 : Trace)
    (hg : get_random_commit_message T tr = (some msg, tr1)) (hmsg : msg ≠ "")
    (hu : update_activity_title T s a.id msg tr1 = (Except.error e, s2, tr2)) :
    processRuns T (a :: rest) s succ tr = (Except.error e, s2, tr2) := by
  rw [processRuns_cons_step T a rest s succ tr tr1 msg hg hmsg, hu]

theorem processRuns_cons_true (T : Transport) (a : Activity) (rest : List Activity)
    (s : UpdaterState) (succ : Nat) (tr tr1 : Trace) (msg : String)
    (s2 : UpdaterState) (tr2 : Trace)
    (hg : get_random_commit_message T tr = (some msg, tr1)) (hmsg : msg ≠ "")
    (hu : update_activity_title T s a.id msg tr1 = (Except.ok true, s2, tr2)) :
    processRuns T (a :: rest) s succ tr = processRuns T rest s2 (succ + 1) tr2 := by
  rw [processRuns_cons_step T a rest s succ tr tr1 msg hg hmsg, hu]

theorem processRuns_cons_false (T : Transport) (a : Activity) (rest : List Activity)
    (s : UpdaterState) (succ : Nat) (tr tr1 : Trace) (msg : String)
    (s2 : UpdaterState) (tr2 : Trace)
    (hg : get_random_commit_message T tr = (some msg, tr1)) (hmsg : msg ≠ "")
    (hu : update_activity_title T s a.id msg tr1 = (Except.ok false, s2, tr2)) :
    processRuns T (a :: rest) s succ tr = processRuns T rest s2 succ tr2 := by
  rw [processRuns_cons_step T a rest s succ tr tr1 msg hg hmsg, hu]

theorem tokenFalsy_some_false (tok : String) (htok : tok ≠ "") :
    tokenFalsy (some tok) = false := by
  simp only [tokenFalsy, beq_eq_false_iff_ne, ne_eq]
  exact htok

theorem bearerOf_some (s : UpdaterState) (tok : String)
    (hs : s.access_token = some tok) : bearerOf s = tok := by
  simp [bearerOf, hs]

theorem update_eq_putTitle (T : Transport) (s : UpdaterState) (aid : Nat)
    (t : String) (tr : Trace) (tok : String)
    (hs : s.access_token = some tok) (htok : tok ≠ "") :
    update_activity_title T s aid t tr = putTitle T s aid t tr := by
  simp [update_activity_title, hs, tokenFalsy_some_false tok htok]

/-- When the updater already holds a non-empty token, the per-item loop never
touches the token endpoint, keeps the state unchanged, and every rename PUT
it makes carries that same bearer token. -/
theorem processRuns_token_stable (T : Transport) (l : List Activity) :
    ∀ (s : UpdaterState) (succ : Nat) (tr : Trace) (tok : String),
      s.access_token = some tok → tok ≠ "" →
      ∃ succ' d, processRuns T l s succ tr = (Except.ok succ', s, tr ++ d) ∧
        countTokenExchanges d = 0 ∧ listEvents d = [] ∧
        ∀ e ∈ renameEvents d, e.1 = tok := by
  induction l with
  | nil =>
    intro s succ tr tok hs htok
    exact ⟨succ, [], by simp [processRuns], rfl, rfl, by simp [renameEvents]⟩
  | cons a rest ih =>
    intro s succ tr tok hs htok
    rcases hg : get_random_commit_message T tr with ⟨res, tr1⟩
    have htr1 : tr1 = tr ++ [Event.captionFetch] := caption_cases T tr res tr1 hg
    cases res with
    | none =>
      obtain ⟨succ', d, hp, hc, hl, hr⟩ := ih s succ tr1 tok hs htok
      refine ⟨succ', [Event.captionFetch] ++ d, ?_, ?_, ?_, ?_⟩
      · rw [processRuns_cons_none T a rest s succ tr tr1 hg, hp, htr1,
          List.append_assoc]
      · rw [countTokenExchanges_append, hc]
        rfl
      · rw [listEvents_append, hl]
        rfl
      · intro e he
        rw [renameEvents_append] at he
        have hnil : renameEvents [Event.captionFetch] = [] := rfl
        rw [hnil, List.nil_append] at he
        exact hr e he
    | some msg =>
      by_cases hmsg : msg = ""
      · subst hmsg
        obtain ⟨succ', d, hp, hc, hl, hr⟩ := ih s succ tr1 tok hs htok
        refine ⟨succ', [Event.captionFetch] ++ d, ?_, ?_, ?_, ?_⟩
        · rw [processRuns_cons_emptyMsg T a rest s succ tr tr1 hg, hp, htr1,
            List.append_assoc]
        · rw [countTokenExchanges_append, hc]
          rfl
        · rw [listEvents_append, hl]
          rfl
        · intro e he
          rw [renameEvents_append] at he
          have hnil : renameEvents [Event.captionFetch] = [] := rfl
          rw [hnil, List.nil_append] at he
          exact hr e he
      rcases hPT : putTitle T s a.id msg tr1 with ⟨r2, s2, tr2⟩
      obtain ⟨hs2, htr2, hr2⟩ := putTitle_cases T s a.id msg tr1 r2 s2 tr2 hPT
      have hb : bearerOf s = tok := bearerOf_some s tok hs
      have hu : update_activity_title T s a.id msg tr1 = (r2, s2, tr2) := by
        rw [update_eq_putTitle T s a.id msg tr1 tok hs htok, hPT]
      have hs2' : s2.access_token = some tok := by rw [hs2, hs]
      have hren : renameEvents [Event.captionFetch,
          Event.renameActivity tok a.id msg] = [(tok, a.id, msg)] := rfl
      rcases hr2 with h2 | h2
      · subst h2
        obtain ⟨succ', d, hp, hc, hl, hr⟩ := ih s2 (succ + 1) tr2 tok hs2' htok
        refine ⟨succ', [Event.captionFetch, Event.renameActivity tok a.id msg] ++ d,
          ?_, ?_, ?_, ?_⟩
        · rw [processRuns_cons_true T a rest s succ tr tr1 msg s2 tr2 hg hmsg hu,
            hp, htr2, htr1, hb, hs2]
          simp [List.append_assoc]
        · rw [countTokenExchanges_append, hc]
          rfl
        · rw [listEvents_append, hl]
          rfl
        · intro e he
          rw [renameEvents_append, hren] at he
          rcases List.mem_append.mp he with h1 | h1
          · rw [List.mem_singleton.mp h1]
          · exact hr e h1
      · subst h2
        obtain ⟨succ', d, hp, hc, hl, hr⟩ := ih s2 succ tr2 tok hs2' htok
        refine ⟨succ', [Event.captionFetch, Event.renameActivity tok a.id msg] ++ d,
          ?_, ?_, ?_, ?_⟩
        · rw [processRuns_cons_false T a rest s succ tr tr1 msg s2 tr2 hg hmsg hu,
            hp, htr2, htr1, hb, hs2]
          simp [List.append_assoc]
        · rw [countTokenExchanges_append, hc]
          rfl
        · rw [listEvents_append, hl]
          rfl
        · intro e he
          rw [renameEvents_append, hren] at he
          rcases List.mem_append.mp he with h1 | h1
          · rw [List.mem_singleton.mp h1]
          · exact hr e h1

/-! ## C9 -/

/-- C9: whenever `update_last_runs` completes and reports
`(attempted, succeeded)`, the succeeded counter is bounded by the attempted
counter (the work-list length): `success_count` is only incremented, at most
once per loop iteration. -/
theorem strava_C9 (T : Transport) (s : UpdaterState) (count : Nat)
    (att sc : Nat) (s' : UpdaterState) (tr' : Trace)
    (h : update_last_runs T s count = (Except.ok (some (att, sc)), s', tr')) :
    sc ≤ att := by
  obtain ⟨runs, s1, tr1, -, -, hatt, hp⟩ :=
    update_last_runs_inv T s count att sc s' tr' h
  have hb := (processRuns_ok_facts T runs s1 0 tr1 sc s' tr' hp).2.1
  omega

/-- C9 witness: the theorem applied to the all-success transport, where two
runs are attempted and both succeed. -/
theorem strava_C9_witness : 2 ≤ 2 :=
  strava_C9 happyT freshS 30 2 2 ⟨"id", "secret", "refresh", some "tok"⟩
    [Event.tokenExchange, Event.listActivities "tok" 100, Event.captionFetch,
      Event.renameActivity "tok" 1 "Fix the bug", Event.captionFetch,
      Event.renameActivity "tok" 3 "Fix the bug"] rfl

/-! ## Directed equations for `get_last_runs` and `update_last_runs` -/

theorem get_last_runs_eq_token (T : Transport) (s : UpdaterState) (count : Nat)
    (tr : Trace) (hs : tokenFalsy s.access_token = false) :
    get_last_runs T s count tr = listAndFilter T s count tr := by
  simp [get_last_runs, hs]

theorem get_last_runs_eq_refresh_ok (T : Transport) (s : UpdaterState)
    (count : Nat) (tr : Trace) (s1 : UpdaterState) (tr1 : Trace)
    (hs : tokenFalsy s.access_token = true)
    (href : refresh_access_token T s tr = (Except.ok true, s1, tr1)) :
    get_last_runs T s count tr = listAndFilter T s1 count tr1 := by
  simp [get_last_runs, hs, href]

theorem get_last_runs_eq_refresh_false (T : Transport) (s : UpdaterState)
    (count : Nat) (tr : Trace) (s1 : UpdaterState) (tr1 : Trace)
    (hs : tokenFalsy s.access_token = true)
    (href : refresh_access_token T s tr = (Except.ok false, s1, tr1)) :
    get_last_runs T s count tr = (Except.ok none, s1, tr1) := by
  simp [get_last_runs, hs, href]

theorem get_last_runs_eq_refresh_err (T : Transport) (s : UpdaterState)
    (count : Nat) (tr : Trace) (e : PyError) (s1 : UpdaterState) (tr1 : Trace)
    (hs : tokenFalsy s.access_token = true)
    (href : refresh_access_token T s tr = (Except.error e, s1, tr1)) :
    get_last_runs T s count tr = (Except.error e, s1, tr1) := by
  simp [get_last_runs, hs, href]

theorem update_last_runs_eq_none (T : Transport) (s : UpdaterState) (count : Nat)
    (s1 : UpdaterState) (tr1 : Trace)
    (hg : get_last_runs T s count [] = (Except.ok none, s1, tr1)) :
    update_last_runs T s count = (Except.ok none, s1, tr1) := by
  unfold update_last_runs
  rw [hg]

theorem update_last_runs_eq_empty (T : Transport) (s : UpdaterState) (count : Nat)
    (runs : List Activity) (s1 : UpdaterState) (tr1 : Trace)
    (hg : get_last_runs T s count [] = (Except.ok (some runs), s1, tr1))
    (hemp : runs.isEmpty = true) :
    update_last_runs T s count = (Except.ok none, s1, tr1) := by
  have h1 : update_last_runs T s count =
      (if runs.isEmpty = true
        then ((Except.ok none : Except PyError RunReport), s1, tr1)
        else match processRuns T runs s1 0 tr1 with
          | (Except.error e, s2, tr2) =>
            ((Except.error e : Except PyError RunReport), s2, tr2)
          | (Except.ok succ, s2, tr2) =>
            (Except.ok (some (runs.length, succ)), s2, tr2)) := by
    unfold update_last_runs
    rw [hg]
  rw [h1, if_pos hemp]

theorem update_last_runs_eq_some (T : Transport) (s : UpdaterState) (count : Nat)
    (runs : List Activity) (s1 : UpdaterState) (tr1 : Trace) (succ : Nat)
    (s2 : UpdaterState) (tr2 : Trace)
    (hg : get_last_runs T s count [] = (Except.ok (some runs), s1, tr1))
    (hne : runs.isEmpty = false)
    (hp : processRuns T runs s1 0 tr1 = (Except.ok succ, s2, tr2)) :
    update_last_runs T s count = (Except.ok (some (runs.length, succ)), s2, tr2) := by
  have h1 : update_last_runs T s count =
      (if runs.isEmpty = true
        then ((Except.ok none : Except PyError RunReport), s1, tr1)
        else match processRuns T runs s1 0 tr1 with
          | (Except.error e, s2, tr2) =>
            ((Except.error e : Except PyError RunReport), s2, tr2)
          | (Except.ok succ, s2, tr2) =>
            (Except.ok (some (runs.length, succ)), s2, tr2)) := by
    unfold update_last_runs
    rw [hg]
  rw [h1, hne, if_neg (by simp), hp]

/-! ## C3 -/

/-- C3: in the per-item caption mode of `update_last_runs`, (i) a completed
run makes exactly one caption fetch per work-list item: the number of caption
GETs in the final trace equals the reported attempted count, which is the
work-list length; and (ii) a caption-fetch failure on the current item skips
exactly that item: the updater state and the success counter are unchanged,
no rename is attempted for it, and the loop continues with the remaining
items. -/
theorem strava_C3 :
    (∀ (T : Transport) (s : UpdaterState) (count att sc : Nat)
      (s' : UpdaterState) (tr' : Trace),
      update_last_runs T s count = (Except.ok (some (att, sc)), s', tr') →
      countCaptionFetches tr' = att) ∧
    (∀ (T : Transport) (act : Activity) (rest : List Activity)
      (s : UpdaterState) (succ : Nat) (tr : Trace),
      (get_random_commit_message T tr).1 = none →
      processRuns T (act :: rest) s succ tr =
        processRuns T rest s succ (tr ++ [Event.captionFetch])) := by
  constructor
  · intro T s count att sc s' tr' h
    obtain ⟨runs, s1, tr1, hg, -, hatt, hp⟩ :=
      update_last_runs_inv T s count att sc s' tr' h
    have h1 := (processRuns_ok_facts T runs s1 0 tr1 sc s' tr' hp).2.2.1
    have h2 := (get_last_runs_trace T s count [] (Except.ok (some runs)) s1 tr1 hg).1
    have h0 : countCaptionFetches ([] : Trace) = 0 := rfl
    rw [h1, h2, h0, hatt]
    omega
  · intro T act rest s succ tr hg1
    rcases hg : get_random_commit_message T tr with ⟨res, tr1⟩
    have hres : res = none := by rw [hg] at hg1; exact hg1
    subst hres
    have htr1 : tr1 = tr ++ [Event.captionFetch] := caption_cases T tr none tr1 hg
    subst htr1
    exact processRuns_cons_none T act rest s succ tr _ hg

/-- A transport where every endpoint is unreachable. -/
def downT : Transport :=
  ⟨fun _ => .netError, fun _ => .netError, fun _ => .netError, fun _ => .netError⟩

/-- A transport whose token endpoint rejects the exchange with a 401. -/
def rejectT : Transport :=
  ⟨fun _ => .response 401 none, fun _ => .netError, fun _ => .netError,
    fun _ => .netError⟩

/-- A transport whose token endpoint answers 200 with a body lacking the
`access_token` field. -/
def noFieldT : Transport :=
  ⟨fun _ => .response 200 none, fun _ => .netError, fun _ => .netError,
    fun _ => .netError⟩

/-- A transport whose token endpoint answers 200 with an *empty-string*
access token. -/
def emptyTokT : Transport :=
  ⟨fun _ => .response 200 (some ""), fun _ => .response 200 [runA],
    fun _ => .response 200 "msg", fun _ => .response 200 ()⟩

/-- A transport whose listing succeeds with an empty page. -/
def emptyListT : Transport :=
  ⟨fun _ => .response 200 (some "tok"), fun _ => .response 200 [],
    fun _ => .netError, fun _ => .netError⟩

/-- A transport whose listing request fails on the wire. -/
def failListT : Transport :=
  ⟨fun _ => .response 200 (some "tok"), fun _ => .netError, fun _ => .netError,
    fun _ => .netError⟩

/-- A transport where everything works except the rename PUT. -/
def renameFailT : Transport :=
  ⟨fun _ => .response 200 (some "tok"), fun _ => .response 200 [runA],
    fun _ => .response 200 "msg", fun _ => .netError⟩

/-- C3 witness: part (i) applied to the all-success run over two runs
(two caption fetches), part (ii) applied to a one-item work list whose
caption fetch fails. -/
theorem strava_C3_witness :
    countCaptionFetches [Event.tokenExchange, Event.listActivities "tok" 100,
      Event.captionFetch, Event.renameActivity "tok" 1 "Fix the bug",
      Event.captionFetch, Event.renameActivity "tok" 3 "Fix the bug"] = 2 ∧
    processRuns downT [runA] authS 0 [] =
      processRuns downT [] authS 0 [Event.captionFetch] :=
  ⟨strava_C3.1 happyT freshS 30 2 2 ⟨"id", "secret", "refresh", some "tok"⟩
      [Event.tokenExchange, Event.listActivities "tok" 100, Event.captionFetch,
        Event.renameActivity "tok" 1 "Fix the bug", Event.captionFetch,
        Event.renameActivity "tok" 3 "Fix the bug"] rfl,
    strava_C3.2 downT runA [] authS 0 [] rfl⟩

/-! ## C4 -/

/-- C4: with a (non-empty) credential in hand and a non-falsy caption for
the current item fetched (so the `if not commit_message: continue` guard is
passed and the rename is actually attempted), a failing rename call (wire
error or error status) is recorded in the trace, leaves the success counter
and updater state unchanged, and the loop continues with the remaining
items; a successful rename is what increments the counter, and it too
continues with the remaining items.  In both cases the remaining items are
processed identically — a single item's update failure never aborts the rest
of the run. -/
theorem strava_C4 (T : Transport) (act : Activity) (rest : List Activity)
    (s : UpdaterState) (succ : Nat) (tr : Trace) (tok msg : String)
    (hs : s.access_token = some tok) (htok : tok ≠ "")
    (hg : (get_random_commit_message T tr).1 = some msg) (hmsg : msg ≠ "") :
    ((T.renameResp (renameEvents tr).length = HttpOutcome.netError ∨
      ∃ st u, T.renameResp (renameEvents tr).length = HttpOutcome.response st u ∧
        400 ≤ st) →
      processRuns T (act :: rest) s succ tr =
        processRuns T rest s succ
          (tr ++ [Event.captionFetch, Event.renameActivity tok act.id msg])) ∧
    (∀ st u, T.renameResp (renameEvents tr).length = HttpOutcome.response st u →
      st < 400 →
      processRuns T (act :: rest) s succ tr =
        processRuns T rest s (succ + 1)
          (tr ++ [Event.captionFetch, Event.renameActivity tok act.id msg])) := by
  rcases hgp : get_random_commit_message T tr with ⟨res, tr1⟩
  have hres : res = some msg := by rw [hgp] at hg; exact hg
  subst hres
  have htr1 : tr1 = tr ++ [Event.captionFetch] := caption_cases T tr (some msg) tr1 hgp
  have hidx : renameEvents tr1 = renameEvents tr := by
    have hnil : renameEvents [Event.captionFetch] = [] := rfl
    rw [htr1, renameEvents_append, hnil, List.append_nil]
  have hb : bearerOf s = tok := bearerOf_some s tok hs
  have hEq := update_eq_putTitle T s act.id msg tr1 tok hs htok
  have happ : tr1 ++ [Event.renameActivity tok act.id msg] =
      tr ++ [Event.captionFetch, Event.renameActivity tok act.id msg] := by
    rw [htr1, List.append_assoc]
    rfl
  constructor
  · intro hfail
    have hput : putTitle T s act.id msg tr1 =
        (Except.ok false, s,
          tr1 ++ [Event.renameActivity (bearerOf s) act.id msg]) := by
      rcases hfail with hne | ⟨st, u, hresp, hst⟩
      · exact putTitle_eq_netError T s act.id msg tr1 (by rw [hidx]; exact hne)
      · exact putTitle_eq_errStatus T s act.id msg tr1 st u
          (by rw [hidx]; exact hresp) hst
    have hu : update_activity_title T s act.id msg tr1 =
        (Except.ok false, s, tr1 ++ [Event.renameActivity tok act.id msg]) := by
      rw [hEq, hput, hb]
    rw [processRuns_cons_false T act rest s succ tr tr1 msg s
        (tr1 ++ [Event.renameActivity tok act.id msg]) hgp hmsg hu, happ]
  · intro st u hresp hst
    have hput : putTitle T s act.id msg tr1 =
        (Except.ok true, s,
          tr1 ++ [Event.renameActivity (bearerOf s) act.id msg]) :=
      putTitle_eq_ok T s act.id msg tr1 st u (by rw [hidx]; exact hresp) hst
    have hu : update_activity_title T s act.id msg tr1 =
        (Except.ok true, s, tr1 ++ [Event.renameActivity tok act.id msg]) := by
      rw [hEq, hput, hb]
    rw [processRuns_cons_true T act rest s succ tr tr1 msg s
        (tr1 ++ [Event.renameActivity tok act.id msg]) hgp hmsg hu, happ]

/-- C4 witness: a failing rename on the only item continues (empty) with the
counter still 0; a succeeding rename continues with the counter at 1. -/
theorem strava_C4_witness :
    processRuns renameFailT [runA] authS 0 [] =
      processRuns renameFailT [] authS 0
        [Event.captionFetch, Event.renameActivity "tok" 1 "msg"] ∧
    processRuns happyT [runA] authS 0 [] =
      processRuns happyT [] authS (0 + 1)
        [Event.captionFetch, Event.renameActivity "tok" 1 "Fix the bug"] :=
  ⟨(strava_C4 renameFailT runA [] authS 0 [] "tok" "msg" rfl (by decide) rfl
      (by decide)).1 (Or.inl rfl),
    (strava_C4 happyT runA [] authS 0 [] "tok" "Fix the bug" rfl (by decide) rfl
      (by decide)).2 200 () rfl (by omega)⟩

/-! ## C2 -/

/-- C2 counterexample: when the token endpoint answers with an *empty-string*
access token, `update_last_runs` performs **two** token-exchange attempts in
a single run — `get_last_runs` refreshes, stores `""`, and the truthiness
guard `not self.access_token` inside `update_activity_title` then refreshes
again — refuting "at most one token-exchange attempt is made". -/
theorem strava_C2_counterexample :
    countTokenExchanges (update_last_runs emptyTokT freshS 30).2.2 = 2 := rfl

/-- C2 (amended): in a run of `update_last_runs` started without a
credential, (a) if the single lazily made token-exchange attempt fails
(wire error or error status), the run aborts as a no-op with exactly one
exchange in the trace and zero rename calls; (b) **provided the exchange
yields a non-empty token**, exactly one exchange is made, it precedes the
(single) listing call, and every authenticated call of the run — the listing
GET and all rename PUTs — carries that same token. -/
theorem strava_C2 :
    (∀ (T : Transport) (s : UpdaterState) (count : Nat),
      s.access_token = none →
      (T.tokenResp 0 = HttpOutcome.netError ∨
        ∃ st body, T.tokenResp 0 = HttpOutcome.response st body ∧ 400 ≤ st) →
      update_last_runs T s count = (Except.ok none, s, [Event.tokenExchange])) ∧
    (∀ (T : Transport) (s : UpdaterState) (count : Nat) (tok : String) (st : Nat),
      s.access_token = none →
      T.tokenResp 0 = HttpOutcome.response st (some tok) → st < 400 → tok ≠ "" →
      ∀ r s' tr', update_last_runs T s count = (r, s', tr') →
        countTokenExchanges tr' = 1 ∧
        (∃ d, tr' = Event.tokenExchange :: Event.listActivities tok 100 :: d ∧
          countTokenExchanges d = 0) ∧
        listEvents tr' = [(tok, 100)] ∧
        (∀ e ∈ renameEvents tr', e.1 = tok)) := by
  constructor
  · intro T s count hs hfail
    have hsf : tokenFalsy s.access_token = true := by rw [hs]; rfl
    have h0 : countTokenExchanges ([] : Trace) = 0 := rfl
    have href : refresh_access_token T s [] =
        (Except.ok false, s, [Event.tokenExchange]) := by
      rcases hfail with hne | ⟨st, body, hresp, hst⟩
      · have h1 := refresh_eq_netError T s [] (by rw [h0]; exact hne)
        simpa using h1
      · have h1 := refresh_eq_errStatus T s [] st body (by rw [h0]; exact hresp) hst
        simpa using h1
    exact update_last_runs_eq_none T s count s [Event.tokenExchange]
      (get_last_runs_eq_refresh_false T s count [] s [Event.tokenExchange] hsf href)
  · intro T s count tok st hs hT hst htok r s' tr' h
    have hsf : tokenFalsy s.access_token = true := by rw [hs]; rfl
    have h0 : countTokenExchanges ([] : Trace) = 0 := rfl
    have href : refresh_access_token T s [] =
        (Except.ok true, { s with access_token := some tok }, [Event.tokenExchange]) := by
      have h1 := refresh_eq_ok T s [] st tok (by rw [h0]; exact hT) hst
      simpa using h1
    have hglr : get_last_runs T s count [] =
        listAndFilter T { s with access_token := some tok } count [Event.tokenExchange] :=
      get_last_runs_eq_refresh_ok T s count [] _ _ hsf href
    have hs1 : ({ s with access_token := some tok } : UpdaterState).access_token
        = some tok := rfl
    have hb1 : bearerOf { s with access_token := some tok } = tok := rfl
    have finish : ∀ d : Trace, tr' =
        [Event.tokenExchange, Event.listActivities tok 100] ++ d →
        countTokenExchanges d = 0 → listEvents d = [] →
        (∀ e ∈ renameEvents d, e.1 = tok) →
        countTokenExchanges tr' = 1 ∧
        (∃ d2, tr' = Event.tokenExchange :: Event.listActivities tok 100 :: d2 ∧
          countTokenExchanges d2 = 0) ∧
        listEvents tr' = [(tok, 100)] ∧
        (∀ e ∈ renameEvents tr', e.1 = tok) := by
      intro d hd hcd hld hrd
      subst hd
      refine ⟨?_, ⟨d, rfl, hcd⟩, ?_, ?_⟩
      · rw [countTokenExchanges_append, hcd]
        rfl
      · rw [listEvents_append, hld, List.append_nil]
        rfl
      · intro e he
        rw [renameEvents_append] at he
        have hnil : renameEvents
            [Event.tokenExchange, Event.listActivities tok 100] = [] := rfl
        rw [hnil, List.nil_append] at he
        exact hrd e he
    rcases hL : T.listResp 0 with _ | ⟨stL, page⟩
    · have hlf := listAndFilter_eq_netError T { s with access_token := some tok }
        count [Event.tokenExchange] hL
      rw [hb1] at hlf
      have hupd := update_last_runs_eq_none T s count _ _ (hglr.trans hlf)
      rw [hupd] at h
      simp only [Prod.mk.injEq] at h
      obtain ⟨-, -, htr'⟩ := h
      exact finish [] htr'.symm rfl rfl (fun e he => absurd he (List.not_mem_nil e))
    · by_cases hstL : 400 ≤ stL
      · have hlf := listAndFilter_eq_errStatus T { s with access_token := some tok }
          count [Event.tokenExchange] stL page hL hstL
        rw [hb1] at hlf
        have hupd := update_last_runs_eq_none T s count _ _ (hglr.trans hlf)
        rw [hupd] at h
        simp only [Prod.mk.injEq] at h
        obtain ⟨-, -, htr'⟩ := h
        exact finish [] htr'.symm rfl rfl (fun e he => absurd he (List.not_mem_nil e))
      · have hlf := listAndFilter_eq_ok T { s with access_token := some tok }
          count [Event.tokenExchange] stL page hL (by omega)
        rw [hb1] at hlf
        by_cases hruns : ((page.filter fun a => a.type == "Run").take count).isEmpty
        · have hupd := update_last_runs_eq_empty T s count _ _ _
            (hglr.trans hlf) hruns
          rw [hupd] at h
          simp only [Prod.mk.injEq] at h
          obtain ⟨-, -, htr'⟩ := h
          exact finish [] htr'.symm rfl rfl (fun e he => absurd he (List.not_mem_nil e))
        · obtain ⟨succ', d, hp, hcd, hld, hrd⟩ :=
            processRuns_token_stable T ((page.filter fun a => a.type == "Run").take count)
              { s with access_token := some tok } 0
              ([Event.tokenExchange] ++ [Event.listActivities tok 100]) tok hs1 htok
          have hupd := update_last_runs_eq_some T s count _ _ _ succ' _ _
            (hglr.trans hlf) (by simpa using hruns) hp
          rw [hupd] at h
          simp only [Prod.mk.injEq] at h
          obtain ⟨-, -, htr'⟩ := h
          exact finish d (by rw [← htr', List.append_assoc]; rfl) hcd hld hrd

/-- C2 witness: (a) applied to an unreachable token endpoint; (b) applied to
the all-success transport, whose final trace holds exactly one token
exchange, placed before the listing call. -/
theorem strava_C2_witness :
    update_last_runs downT freshS 30 = (Except.ok none, freshS, [Event.tokenExchange]) ∧
    countTokenExchanges [Event.tokenExchange, Event.listActivities "tok" 100,
      Event.captionFetch, Event.renameActivity "tok" 1 "Fix the bug",
      Event.captionFetch, Event.renameActivity "tok" 3 "Fix the bug"] = 1 :=
  ⟨strava_C2.1 downT freshS 30 rfl (Or.inl rfl),
    (strava_C2.2 happyT freshS 30 "tok" 200 rfl rfl (by omega) (by decide)
      (Except.ok (some (2, 2))) ⟨"id", "secret", "refresh", some "tok"⟩
      [Event.tokenExchange, Event.listActivities "tok" 100, Event.captionFetch,
        Event.renameActivity "tok" 1 "Fix the bug", Event.captionFetch,
        Event.renameActivity "tok" 3 "Fix the bug"] rfl).1⟩

/-! ## C5 -/

/-- C5: if any of the three environment variables is unset or empty
(Python-falsy, as tested by `not all([...])`), `main` returns the
configuration-error report immediately with an **empty** trace: no HTTP call
of any kind is made, and the updater run never starts. -/
theorem strava_C5 (env : Env) (T : Transport)
    (h : strFalsy env.STRAVA_CLIENT_ID = true ∨
      strFalsy env.STRAVA_CLIENT_SECRET = true ∨
      strFalsy env.STRAVA_REFRESH_TOKEN = true) :
    main env T = (MainResult.configError, []) := by
  unfold main
  rcases h with h | h | h <;> simp [h]

/-- C5 witness: an empty client id aborts before any network activity even
when every endpoint would answer. -/
theorem strava_C5_witness :
    main ⟨some "", some "secret", some "refresh"⟩ happyT =
      (MainResult.configError, []) :=
  strava_C5 ⟨some "", some "secret", some "refresh"⟩ happyT (Or.inl rfl)

/-! ## C6 -/

/-- C6 counterexample: a successful-but-empty listing and a failed listing
produce *identical* caller reports from `update_last_runs` (the same
`Except.ok none`, printed as the same message "No running activities found
or error occurred") — the caller does **not** report them distinctly, even
though `get_last_runs` itself returns `some []` versus `none`. -/
theorem strava_C6_counterexample :
    (update_last_runs emptyListT freshS 30).1 = (update_last_runs failListT freshS 30).1 ∧
    (update_last_runs emptyListT freshS 30).1 = Except.ok none ∧
    (get_last_runs emptyListT freshS 30 []).1 = Except.ok (some []) ∧
    (get_last_runs failListT freshS 30 []).1 = Except.ok none :=
  ⟨rfl, rfl, rfl, rfl⟩

/-- C6 (amended): an empty successful listing is not a failure at the
activity-source level — `get_last_runs` returns the empty list, distinct
from the `None` it returns on a listing failure — and the run terminates as
a no-op; but the caller `update_last_runs` does **not** report the two
distinctly: its `if not runs:` guard maps both to the same early-return
report. -/
theorem strava_C6 (T : Transport) (s : UpdaterState) (count : Nat) (tok : String)
    (st : Nat) (hs : s.access_token = some tok) (htok : tok ≠ "")
    (hl : T.listResp 0 = HttpOutcome.response st []) (hst : st < 400) :
    (get_last_runs T s count []).1 = Except.ok (some []) ∧
    (update_last_runs T s count).1 = Except.ok none ∧
    ∀ T2 : Transport, T2.listResp 0 = HttpOutcome.netError →
      (get_last_runs T2 s count []).1 = Except.ok none ∧
      (update_last_runs T2 s count).1 = (update_last_runs T s count).1 := by
  have hsf : tokenFalsy s.access_token = false := by
    rw [hs]
    exact tokenFalsy_some_false tok htok
  have hglr : get_last_runs T s count [] = listAndFilter T s count [] :=
    get_last_runs_eq_token T s count [] hsf
  have hlf := listAndFilter_eq_ok T s count [] st [] hl hst
  have hfilter : (([] : List Activity).filter fun a => a.type == "Run").take count
      = [] := List.take_nil
  rw [hfilter] at hlf
  have hg2 : get_last_runs T s count [] =
      (Except.ok (some []), s, [] ++ [Event.listActivities (bearerOf s) 100]) :=
    hglr.trans hlf
  have hupd : update_last_runs T s count =
      (Except.ok none, s, [] ++ [Event.listActivities (bearerOf s) 100]) :=
    update_last_runs_eq_empty T s count [] s _ hg2 rfl
  refine ⟨by rw [hg2], by rw [hupd], ?_⟩
  intro T2 hT2
  have hg3 : get_last_runs T2 s count [] =
      (Except.ok none, s, [] ++ [Event.listActivities (bearerOf s) 100]) :=
    (get_last_runs_eq_token T2 s count [] hsf).trans
      (listAndFilter_eq_netError T2 s count [] hT2)
  have hupd2 := update_last_runs_eq_none T2 s count s _ hg3
  exact ⟨by rw [hg3], by rw [hupd2, hupd]⟩

/-- C6 witness: the amended theorem applied to the empty-page and
failed-listing transports with a valid token. -/
theorem strava_C6_witness :
    (get_last_runs emptyListT authS 30 []).1 = Except.ok (some []) ∧
    (update_last_runs emptyListT authS 30).1 = Except.ok none ∧
    (get_last_runs failListT authS 30 []).1 = Except.ok none ∧
    (update_last_runs failListT authS 30).1 = (update_last_runs emptyListT authS 30).1 := by
  obtain ⟨h1, h2, h3⟩ :=
    strava_C6 emptyListT authS 30 "tok" 200 rfl (by decide) rfl (by omega)
  exact ⟨h1, h2, (h3 failListT rfl).1, (h3 failListT rfl).2⟩

/-! ## C7 -/

/-- C7 counterexample: a 2xx token response whose body lacks the
`access_token` field makes `refresh_access_token` raise an uncaught
`KeyError` (modelled as `Except.error`) instead of returning the `False`
failure outcome — the `except` clause only catches `RequestException`. -/
theorem strava_C7_counterexample :
    (refresh_access_token noFieldT freshS []).1 = Except.error PyError.keyError := rfl

/-- C7 (amended): a wire error or an error status makes
`refresh_access_token` return the `False` failure outcome after exactly one
exchange call (no retry: precisely one `tokenExchange` event is appended);
but a successful response whose body lacks the access-token field raises an
uncaught `KeyError` rather than producing a failure outcome. -/
theorem strava_C7 (T : Transport) (s : UpdaterState) (tr : Trace) :
    (T.tokenResp (countTokenExchanges tr) = HttpOutcome.netError →
      refresh_access_token T s tr =
        (Except.ok false, s, tr ++ [Event.tokenExchange])) ∧
    (∀ st body, T.tokenResp (countTokenExchanges tr) = HttpOutcome.response st body →
      400 ≤ st →
      refresh_access_token T s tr =
        (Except.ok false, s, tr ++ [Event.tokenExchange])) ∧
    (∀ st, T.tokenResp (countTokenExchanges tr) = HttpOutcome.response st none →
      st < 400 →
      refresh_access_token T s tr =
        (Except.error PyError.keyError, s, tr ++ [Event.tokenExchange])) :=
  ⟨fun hT => refresh_eq_netError T s tr hT,
    fun st body hT hst => refresh_eq_errStatus T s tr st body hT hst,
    fun st hT hst => refresh_eq_noField T s tr st hT hst⟩

/-- C7 witness: the three cases at concrete transports — unreachable
endpoint, 401 rejection, and 200 with a missing field. -/
theorem strava_C7_witness :
    refresh_access_token downT freshS [] =
      (Except.ok false, freshS, [Event.tokenExchange]) ∧
    refresh_access_token rejectT freshS [] =
      (Except.ok false, freshS, [Event.tokenExchange]) ∧
    refresh_access_token noFieldT freshS [] =
      (Except.error PyError.keyError, freshS, [Event.tokenExchange]) := by
  refine ⟨?_, ?_, ?_⟩
  · have h := (strava_C7 downT freshS []).1 rfl
    simpa using h
  · have h := (strava_C7 rejectT freshS []).2.1 401 none rfl (by omega)
    simpa using h
  · have h := (strava_C7 noFieldT freshS []).2.2 200 rfl (by omega)
    simpa using h

/-! ## C8 -/

theorem rdropWhile_append_rtake (p : Char → Bool) (l : List Char) :
    List.rdropWhile p l ++ List.rtakeWhile p l = l := by
  rw [List.rdropWhile, List.rtakeWhile, ← List.reverse_append,
    List.takeWhile_append_dropWhile, List.reverse_reverse]

theorem head?_dropWhile_false {p : Char → Bool} {l : List Char} {c : Char}
    (h : (l.dropWhile p).head? = some c) : p c = false := by
  have hne : l.dropWhile p ≠ [] := by
    intro h0
    rw [h0] at h
    simp at h
  have h2 := List.head_dropWhile_not p l hne
  rw [List.head?_eq_head hne] at h
  exact (Option.some.inj h) ▸ h2

/-- C8: on any successful caption response, `get_random_commit_message`
returns exactly the response body stripped à la Python `str.strip()`:
the body splits as all-whitespace prefix ++ caption ++ all-whitespace
suffix, and the caption itself neither starts nor ends with a whitespace
character. -/
theorem strava_C8 (T : Transport) (tr : Trace) (st : Nat) (body : String)
    (hc : T.captionResp (countCaptionFetches tr) = HttpOutcome.response st body)
    (hst : st < 400) :
    get_random_commit_message T tr =
      (some (pyStrip body), tr ++ [Event.captionFetch]) ∧
    (∃ pre post, body.data = pre ++ (pyStrip body).data ++ post ∧
      (∀ c ∈ pre, pyIsSpace c = true) ∧ (∀ c ∈ post, pyIsSpace c = true)) ∧
    (∀ c, (pyStrip body).data.head? = some c → pyIsSpace c = false) ∧
    (∀ c, (pyStrip body).data.getLast? = some c → pyIsSpace c = false) := by
  have hd : (pyStrip body).data =
      (body.data.dropWhile pyIsSpace).rdropWhile pyIsSpace := rfl
  refine ⟨caption_eq_ok T tr st body hc hst, ?_, ?_, ?_⟩
  · refine ⟨body.data.takeWhile pyIsSpace,
      (body.data.dropWhile pyIsSpace).rtakeWhile pyIsSpace, ?_, ?_, ?_⟩
    · rw [hd, List.append_assoc, rdropWhile_append_rtake,
        List.takeWhile_append_dropWhile]
    · intro c hcmem
      exact List.mem_takeWhile_imp hcmem
    · intro c hcmem
      exact List.mem_rtakeWhile_imp hcmem
  · intro c hhead
    rw [hd] at hhead
    obtain ⟨t, ht⟩ :=
      List.rdropWhile_prefix pyIsSpace (body.data.dropWhile pyIsSpace)
    have hm : (body.data.dropWhile pyIsSpace).head? = some c := by
      rw [← ht, List.head?_append, hhead]
      rfl
    exact head?_dropWhile_false hm
  · intro c hlast
    rw [hd] at hlast
    have hne : (body.data.dropWhile pyIsSpace).rdropWhile pyIsSpace ≠ [] := by
      intro h0
      rw [h0] at hlast
      simp at hlast
    rw [List.getLast?_eq_getLast _ hne] at hlast
    have hnot :=
      List.rdropWhile_last_not pyIsSpace (body.data.dropWhile pyIsSpace) hne
    rw [Option.some.inj hlast] at hnot
    simpa using hnot

/-- C8 witness: the theorem applied to the caption body `" Fix the bug "`,
whose stripped caption starts with the non-whitespace character `F`. -/
theorem strava_C8_witness :
    get_random_commit_message happyT [] =
      (some (pyStrip " Fix the bug "), [Event.captionFetch]) ∧
    pyIsSpace 'F' = false :=
  ⟨(strava_C8 happyT [] 200 " Fix the bug " rfl (by omega)).1,
    (strava_C8 happyT [] 200 " Fix the bug " rfl (by omega)).2.2.1 'F' rfl⟩

/-! ## C10 -/

/-- C10: with a valid credential and any successful listing,
`update_last_runs` with `count = 0` truncates the work list to the empty
list (`get_last_runs` returns `some []`), makes zero caption fetches and
zero rename calls, and its report is the very same early-return value that
a listing failure produces — the `if not runs:` branch. -/
theorem strava_C10 (T : Transport) (s : UpdaterState) (tok : String) (st : Nat)
    (page : List Activity) (hs : s.access_token = some tok) (htok : tok ≠ "")
    (hl : T.listResp 0 = HttpOutcome.response st page) (hst : st < 400) :
    get_last_runs T s 0 [] =
      (Except.ok (some []), s, [Event.listActivities tok 100]) ∧
    update_last_runs T s 0 =
      (Except.ok none, s, [Event.listActivities tok 100]) ∧
    countCaptionFetches [Event.listActivities tok 100] = 0 ∧
    renameEvents [Event.listActivities tok 100] = [] ∧
    ∀ T2 : Transport, T2.listResp 0 = HttpOutcome.netError →
      (update_last_runs T2 s 0).1 = (update_last_runs T s 0).1 := by
  have hsf : tokenFalsy s.access_token = false := by
    rw [hs]
    exact tokenFalsy_some_false tok htok
  have hb : bearerOf s = tok := bearerOf_some s tok hs
  have hlf := listAndFilter_eq_ok T s 0 [] st page hl hst
  rw [List.take_zero, hb] at hlf
  have hg2 : get_last_runs T s 0 [] =
      (Except.ok (some []), s, [Event.listActivities tok 100]) := by
    rw [get_last_runs_eq_token T s 0 [] hsf, hlf]
    rfl
  have hupd : update_last_runs T s 0 =
      (Except.ok none, s, [Event.listActivities tok 100]) :=
    update_last_runs_eq_empty T s 0 [] s _ hg2 rfl
  refine ⟨hg2, hupd, rfl, rfl, ?_⟩
  intro T2 hT2
  have hg3 : get_last_runs T2 s 0 [] =
      (Except.ok none, s, [] ++ [Event.listActivities tok 100]) := by
    rw [get_last_runs_eq_token T2 s 0 [] hsf,
      listAndFilter_eq_netError T2 s 0 [] hT2, hb]
  rw [update_last_runs_eq_none T2 s 0 s _ hg3, hupd]

/-- C10 witness: the theorem applied to the all-success transport with a
three-activity page and to the unreachable transport. -/
theorem strava_C10_witness :
    get_last_runs happyT authS 0 [] =
      (Except.ok (some []), authS, [Event.listActivities "tok" 100]) ∧
    update_last_runs happyT authS 0 =
      (Except.ok none, authS, [Event.listActivities "tok" 100]) ∧
    (update_last_runs downT authS 0).1 = (update_last_runs happyT authS 0).1 := by
  obtain ⟨h1, h2, -, -, h5⟩ :=
    strava_C10 happyT authS "tok" 200 [runA, rideB, runC] rfl (by decide) rfl
      (by omega)
  exact ⟨h1, h2, h5 downT rfl⟩

end StravaSpec
